import Mathlib

/-!
Shallow embedding of the fish-simulation core of the final RioScene variant
(`src/unnamed/part_001`): vectors, the swim box, the spatial hash, steering,
the per-agent tick, and the instanced-mesh slot-compaction scheme behind
`catchFish`.  JavaScript numbers are modelled as real numbers; the random
draws consumed by the code (Box-Muller normals and uniform draws) are passed
in as explicit parameters.
-/

namespace Rio

/-- Embedding of `THREE.Vector3` as used by the simulation code. -/
structure Vec3 where
  x : ℝ
  y : ℝ
  z : ℝ

@[ext] theorem Vec3.ext {a b : Vec3} (hx : a.x = b.x) (hy : a.y = b.y)
    (hz : a.z = b.z) : a = b := by
  cases a; cases b; simp_all

instance : Zero Vec3 := ⟨⟨0, 0, 0⟩⟩

instance : Add Vec3 := ⟨fun a b => ⟨a.x + b.x, a.y + b.y, a.z + b.z⟩⟩

instance : Sub Vec3 := ⟨fun a b => ⟨a.x - b.x, a.y - b.y, a.z - b.z⟩⟩

instance : SMul ℝ Vec3 := ⟨fun c v => ⟨c * v.x, c * v.y, c * v.z⟩⟩

@[simp] theorem Vec3.zero_x : (0 : Vec3).x = 0 := rfl

@[simp] theorem Vec3.zero_y : (0 : Vec3).y = 0 := rfl

@[simp] theorem Vec3.zero_z : (0 : Vec3).z = 0 := rfl

@[simp] theorem Vec3.add_x (a b : Vec3) : (a + b).x = a.x + b.x := rfl

@[simp] theorem Vec3.add_y (a b : Vec3) : (a + b).y = a.y + b.y := rfl

@[simp] theorem Vec3.add_z (a b : Vec3) : (a + b).z = a.z + b.z := rfl

@[simp] theorem Vec3.sub_x (a b : Vec3) : (a - b).x = a.x - b.x := rfl

@[simp] theorem Vec3.sub_y (a b : Vec3) : (a - b).y = a.y - b.y := rfl

@[simp] theorem Vec3.sub_z (a b : Vec3) : (a - b).z = a.z - b.z := rfl

@[simp] theorem Vec3.smul_x (c : ℝ) (v : Vec3) : (c • v).x = c * v.x := rfl

@[simp] theorem Vec3.smul_y (c : ℝ) (v : Vec3) : (c • v).y = c * v.y := rfl

@[simp] theorem Vec3.smul_z (c : ℝ) (v : Vec3) : (c • v).z = c * v.z := rfl

instance : AddCommMonoid Vec3 where
  add_assoc a b c := by ext <;> simp <;> ring
  zero_add a := by ext <;> simp
  add_zero a := by ext <;> simp
  add_comm a b := by ext <;> simp <;> ring
  nsmul := nsmulRec

/-- Source `Vector3.lengthSq`: `x*x + y*y + z*z`. -/
def len2 (v : Vec3) : ℝ := v.x * v.x + v.y * v.y + v.z * v.z

/-- Source `Vector3.length`: square root of `lengthSq`. -/
noncomputable def len (v : Vec3) : ℝ := Real.sqrt (len2 v)

/-- Source `Vector3.normalize`: `divideScalar(this.length() || 1)`; the `|| 1`
guard means the zero vector is left unchanged. -/
noncomputable def normalizeV (v : Vec3) : Vec3 :=
  (1 / (if len v = 0 then 1 else len v)) • v

/-- Source `Vector3.setLength l`: `normalize().multiplyScalar(l)`. -/
noncomputable def setLengthV (v : Vec3) (l : ℝ) : Vec3 := l • normalizeV v

/-- The scene helper `clamp`: `(v, a, b) => Math.max(a, Math.min(b, v))`. -/
noncomputable def clampR (v a b : ℝ) : ℝ := max a (min b v)

/-- The scene helper `lerp`: `(a, b, t) => a + (b - a) * t`. -/
def lerpR (a b t : ℝ) : ℝ := a + (b - a) * t

/-- Embedding of `THREE.Box3` (the swim box): axis-aligned min/max corners. -/
structure Box3 where
  min : Vec3
  max : Vec3

/-- Source `Box3.containsPoint`: inclusive componentwise interval test. -/
def containsPoint (b : Box3) (p : Vec3) : Prop :=
  b.min.x ≤ p.x ∧ p.x ≤ b.max.x ∧
  b.min.y ≤ p.y ∧ p.y ≤ b.max.y ∧
  b.min.z ≤ p.z ∧ p.z ≤ b.max.z

noncomputable instance containsPointDec (b : Box3) (p : Vec3) :
    Decidable (containsPoint b p) := by
  unfold containsPoint; infer_instance

/- ------------------------------------------------------------------ -/
/- Generic helper lemmas about the numeric helpers                     -/
/- ------------------------------------------------------------------ -/

theorem le_clampR (v a b : ℝ) : a ≤ clampR v a b := le_max_left a _

theorem clampR_le (v a b : ℝ) (hab : a ≤ b) : clampR v a b ≤ b := by
  unfold clampR
  exact max_le hab (le_trans (min_le_left b v) le_rfl)

theorem len2_nonneg (v : Vec3) : 0 ≤ len2 v := by
  unfold len2
  nlinarith [mul_self_nonneg v.x, mul_self_nonneg v.y, mul_self_nonneg v.z]

theorem smul_assoc_vec (c d : ℝ) (v : Vec3) : c • d • v = (c * d) • v := by
  ext <;> simp <;> ring

theorem len_nonneg (v : Vec3) : 0 ≤ len v := Real.sqrt_nonneg _

theorem len_smul (c : ℝ) (v : Vec3) : len (c • v) = |c| * len v := by
  unfold len len2
  have h : (c • v).x * (c • v).x + (c • v).y * (c • v).y + (c • v).z * (c • v).z
      = (c * c) * (v.x * v.x + v.y * v.y + v.z * v.z) := by
    simp; ring
  rw [h, Real.sqrt_mul (mul_self_nonneg c)]
  congr 1
  rw [show c * c = c ^ 2 by ring, Real.sqrt_sq_eq_abs]

theorem len_eq_zero_iff (v : Vec3) : len v = 0 ↔ len2 v = 0 := by
  unfold len
  constructor
  · intro h
    have := Real.sqrt_eq_zero (len2_nonneg v) |>.mp h
    exact this
  · intro h; rw [h, Real.sqrt_zero]

theorem len_pos_of_len2_pos {v : Vec3} (h : 0 < len2 v) : 0 < len v := by
  unfold len
  exact Real.sqrt_pos.mpr h

theorem len_sq (v : Vec3) : len v * len v = len2 v := by
  unfold len
  exact Real.mul_self_sqrt (len2_nonneg v)

/-- Source `setLength` on a vector of positive length `d` produces a vector of
length `|l|`. -/
theorem len_setLengthV {v : Vec3} (l : ℝ) (hv : 0 < len v) :
    len (setLengthV v l) = |l| := by
  unfold setLengthV normalizeV
  rw [smul_assoc_vec, len_smul, abs_mul]
  rw [if_neg (ne_of_gt hv)]
  rw [abs_of_pos (by positivity : (0:ℝ) < 1 / len v)]
  field_simp

/- ------------------------------------------------------------------ -/
/- Species bias, agents, and biased point sampling                     -/
/- ------------------------------------------------------------------ -/

/-- The bias fields a `FishSpecies` resolves from `fishPositionBias`
(`biasXMean`, `biasXSigma`, `biasYMean`, `biasYSigma`). -/
structure SpeciesBias where
  biasXMean : ℝ
  biasXSigma : ℝ
  biasYMean : ℝ
  biasYSigma : ℝ

/-- The global fish tunables block `params.fish` (with the retarget range
split into its two entries). -/
structure FishParams where
  speedMin : ℝ
  speedMax : ℝ
  accel : ℝ
  separationRadius : ℝ
  separationStrength : ℝ
  targetReachDist : ℝ
  retargetMin : ℝ
  retargetMax : ℝ

/-- One `FishAgent`: simulation state mutated each tick, plus the species
bias block, the per-agent speed bounds fixed at spawn, the cached
`_sepForce` vector, and an object identity used for the reference
comparison `other === agent`. -/
structure Agent where
  id : ℕ
  pos : Vec3
  vel : Vec3
  target : Vec3
  nextRetargetAt : ℝ
  speedMin : ℝ
  speedMax : ℝ
  sepForce : Vec3
  species : SpeciesBias

/-- Source `FishSpecies.randBiasedPoint(swimBox)`: Gaussian-biased X and Y,
uniform Z, everything clamped into the box.  The two standard-normal
draws (`randn()`) are passed in as `gx`, `gy`; the uniform draw
(`Math.random()`) used for Z as `uz`. -/
noncomputable def randBiasedPoint (sp : SpeciesBias) (swimBox : Box3)
    (gx gy uz : ℝ) : Vec3 :=
  let mn := swimBox.min
  let mx := swimBox.max
  let xSpan := mx.x - mn.x
  let xMean := mn.x + clampR sp.biasXMean 0 1 * xSpan
  let xSigma := sp.biasXSigma * xSpan
  let x0 := xMean + (if xSigma > 0 then gx * xSigma else 0)
  let ySpan := mx.y - mn.y
  let yMean := mn.y + clampR sp.biasYMean 0 1 * ySpan
  let ySigma := sp.biasYSigma * ySpan
  let y0 := yMean + (if ySigma > 0 then gy * ySigma else 0)
  let z0 := lerpR mn.z mx.z uz
  ⟨clampR x0 mn.x mx.x, clampR y0 mn.y mx.y, clampR z0 mn.z mx.z⟩

/- ------------------------------------------------------------------ -/
/- Steering kernel                                                     -/
/- ------------------------------------------------------------------ -/

/-- Source `RioScene.steerSeek`: desired velocity toward the target at
`speedMax`, minus the current velocity, scaled by `intensity`; zero when
the agent is within `1e-5` of the target. -/
noncomputable def steerSeek (agent : Agent) (target : Vec3) (intensity : ℝ) :
    Vec3 :=
  let desired := target - agent.pos
  let d := len desired
  if d < 1e-5 then 0
  else intensity • (agent.speedMax • normalizeV desired - agent.vel)

/-- The contribution of one neighbor inside the `steerSeparation` loop:
skip the agent itself (reference comparison, modelled by `id`), then for
`0 < d2 < radius*radius` add `normalize(diff) * (1/d2)`. -/
noncomputable def sepContrib (agent other : Agent) (radius : ℝ) : Vec3 :=
  if other.id = agent.id then 0
  else
    let diff := agent.pos - other.pos
    let d2 := len2 diff
    if 0 < d2 ∧ d2 < radius * radius then (1 / d2) • normalizeV diff else 0

/-- Whether a neighbor passes both guards of the `steerSeparation` loop
(and so increments `count`). -/
def sepCounts (agent other : Agent) (radius : ℝ) : Prop :=
  ¬ other.id = agent.id ∧ 0 < len2 (agent.pos - other.pos) ∧
    len2 (agent.pos - other.pos) < radius * radius

noncomputable instance : DecidablePred fun p : Agent × Agent × ℝ =>
    sepCounts p.1 p.2.1 p.2.2 := fun _ => by
  unfold sepCounts; infer_instance

noncomputable instance sepCountsDec (agent other : Agent) (radius : ℝ) :
    Decidable (sepCounts agent other radius) := by
  unfold sepCounts; infer_instance

/-- Source `RioScene.steerSeparation`: sum the per-neighbor contributions, then
scale by `strength` when at least one neighbor contributed. -/
noncomputable def steerSeparation (agent : Agent) (neighbors : List Agent)
    (radius strength : ℝ) : Vec3 :=
  let force := (neighbors.map (fun o => sepContrib agent o radius)).sum
  let count := neighbors.countP (fun o => decide (sepCounts agent o radius))
  if 0 < count then strength • force else force

/-- Source `RioScene.steerContain`: per face, if the agent is outside, push
inward by the penetration depth (`f.x += -d` below the min face,
`f.x -= -d` beyond the max face, and likewise for Y and Z). -/
noncomputable def steerContain (swimBox : Box3) (agent : Agent) : Vec3 :=
  let p := agent.pos
  let b := swimBox
  let fx := (if p.x - b.min.x < 0 then -(p.x - b.min.x) else 0) +
            (if b.max.x - p.x < 0 then b.max.x - p.x else 0)
  let fy := (if p.y - b.min.y < 0 then -(p.y - b.min.y) else 0) +
            (if b.max.y - p.y < 0 then b.max.y - p.y else 0)
  let fz := (if p.z - b.min.z < 0 then -(p.z - b.min.z) else 0) +
            (if b.max.z - p.z < 0 then b.max.z - p.z else 0)
  ⟨fx, fy, fz⟩

/-- Source `RioScene.projectInsideSwimBox`: componentwise clamp into the box. -/
noncomputable def projectInsideSwimBox (swimBox : Box3) (p : Vec3) : Vec3 :=
  ⟨clampR p.x swimBox.min.x swimBox.max.x,
   clampR p.y swimBox.min.y swimBox.max.y,
   clampR p.z swimBox.min.z swimBox.max.z⟩

/- ------------------------------------------------------------------ -/
/- Per-agent tick (the body of the `updateFish` loop)                  -/
/- ------------------------------------------------------------------ -/

/-- Velocity integration and speed clamping from `updateFish`:
`vel += force*dt`, then the magnitude is clamped to
`[min(speedMin, speedMax*0.9), speedMax]` via `setLength`. -/
noncomputable def integrateVelocity (vel force : Vec3) (dt smin smax : ℝ) :
    Vec3 :=
  let v1 := vel + dt • force
  let spd := len v1
  let mn := min smin (smax * 0.9)
  if spd > smax then setLengthV v1 smax
  else if spd < mn then setLengthV v1 mn
  else v1

/-- The pass of one agent through the body of the `updateFish` loop: retarget
check, steering forces (seek + cached-or-fresh separation + 6x contain),
acceleration clamp, velocity integration with speed clamp, position
integration with projection into the swim box.  `doSepTick` is the
`doSeparationTick` flag, `neighbors` the list `this._hash.neighbors(a.pos)`
returns, and `gx gy uz u` the random draws a retarget would consume. -/
noncomputable def updateFishAgent (swimBox : Box3) (pf : FishParams)
    (now dt : ℝ) (a : Agent) (neighbors : List Agent) (doSepTick : Bool)
    (gx gy uz u : ℝ) : Agent :=
  -- Retarget if reached, timed out, or target left the box
  let a1 :=
    if len (a.target - a.pos) < pf.targetReachDist ∨ a.nextRetargetAt ≤ now ∨
        ¬ containsPoint swimBox a.target then
      { a with target := randBiasedPoint a.species swimBox gx gy uz,
               nextRetargetAt := now + lerpR pf.retargetMin pf.retargetMax u }
    else a
  -- Steering forces
  let fSeek := steerSeek a1 a1.target 1
  let fSepNow :=
    if doSepTick then
      steerSeparation a1 neighbors pf.separationRadius pf.separationStrength
    else a1.sepForce
  let fBox := (6 : ℝ) • steerContain swimBox a1
  -- Sum and clamp by max accel
  let force := fSeek + fSepNow + fBox
  let force2 := if len force > pf.accel then setLengthV force pf.accel else force
  -- Integrate velocity and clamp speed per species
  let v2 := integrateVelocity a1.vel force2 dt a1.speedMin a1.speedMax
  -- Integrate position and clamp to swimBox
  let p2 := projectInsideSwimBox swimBox (a1.pos + dt • v2)
  { a1 with vel := v2, pos := p2, sepForce := fSepNow }

/- ------------------------------------------------------------------ -/
/- Spatial hash                                                        -/
/- ------------------------------------------------------------------ -/

/-- A grid cell key: the triple `(floor(x/s), floor(y/s), floor(z/s))`
that `SpatialHash._key` stringifies. -/
structure Cell where
  cx : ℤ
  cy : ℤ
  cz : ℤ
deriving DecidableEq

/-- Source `SpatialHash._key`: componentwise `Math.floor(coord / cellSize)`. -/
noncomputable def hashKey (s : ℝ) (p : Vec3) : Cell :=
  ⟨⌊p.x / s⌋, ⌊p.y / s⌋, ⌊p.z / s⌋⟩

/-- Source `SpatialHash.rebuild(agents)`: clear the map and rehash every agent by
its position; the bin of a key is exactly the agents hashing to it, in list
order. -/
noncomputable def rebuildHash (s : ℝ) (agents : List Agent) :
    Cell → List Agent :=
  fun k => agents.filter (fun a => decide (hashKey s a.pos = k))

/-- The 27 cell offsets of the `neighbors` triple loop, in its
`dx`-outer / `dz`-inner iteration order. -/
def neighborOffsets : List (ℤ × ℤ × ℤ) :=
  [-1, 0, 1].flatMap (fun dx =>
    [-1, 0, 1].flatMap (fun dy =>
      [-1, 0, 1].map (fun dz => (dx, dy, dz))))

/-- Source `SpatialHash.neighbors(p)`: concatenate the bins of the 3x3x3 block of
cells centered on the cell of `p`. -/
noncomputable def hashNeighbors (hmap : Cell → List Agent) (s : ℝ)
    (p : Vec3) : List Agent :=
  let c := hashKey s p
  neighborOffsets.flatMap (fun d => hmap ⟨c.cx + d.1, c.cy + d.2.1, c.cz + d.2.2⟩)

/- ------------------------------------------------------------------ -/
/- Separation-tick scheduling (head of `updateFish`)                   -/
/- ------------------------------------------------------------------ -/

/-- The scheduling state `updateFish` keeps on the scene: the accumulator
`_sepAccum`, the rate `_sepHz`, and the cell size of the hash and map.
`rebuilds` instruments the state with the number of `rebuild()` calls made
so far (it is not a source field; it only counts invocations). -/
structure SepSched where
  sepAccum : ℝ
  sepHz : ℝ
  hashCell : ℝ
  hashMap : Cell → List Agent
  rebuilds : ℕ

/-- The throttled-rebuild head of `updateFish`: `_sepAccum += dt`; when it
reaches `1/_sepHz`, reset it to zero, set the cell size to
`max(1e-3, separationRadius)` and rebuild the hash from all current
agents.  Returns the new state and the `doSeparationTick` flag. -/
noncomputable def sepSchedTick (st : SepSched) (dt : ℝ)
    (agents : List Agent) (separationRadius : ℝ) : SepSched × Bool :=
  let acc := st.sepAccum + dt
  if acc ≥ 1 / st.sepHz then
    ({ st with sepAccum := 0,
               hashCell := max (1e-3) separationRadius,
               hashMap := rebuildHash (max (1e-3) separationRadius) agents,
               rebuilds := st.rebuilds + 1 }, true)
  else
    ({ st with sepAccum := acc }, false)

/- ------------------------------------------------------------------ -/
/- Swim box refresh and camera wheel (C1)                              -/
/- ------------------------------------------------------------------ -/

/-- The world parameters `updateSwimBoxDynamic` and `onWheel` read.
`swimBoxMaxX` is `None` until `mount` runs `params.swimBoxMaxX =
params.start.x`; the code reads it as `params.swimBoxMaxX ?? params.start.x`. -/
structure WorldParams where
  startX : ℝ
  shoreLevel : ℝ
  floorLevel : ℝ
  surfaceLevel : ℝ
  leftLimit : ℝ
  rightLimit : ℝ
  wheelStepX : ℝ
  swimBoxMaxX : Option ℝ

/-- Source `RioScene.updateSwimBoxDynamic`: X min is the shore, X max is
`max(shoreLevel + 0.001, params.swimBoxMaxX ?? params.start.x)` (the
comment in the source reads "X stays frozen"), and Y/Z reflect the
explicit params. -/
noncomputable def updateSwimBoxDynamic (pr : WorldParams) : Box3 :=
  let maxX := pr.swimBoxMaxX.getD pr.startX
  { min := ⟨pr.shoreLevel, pr.floorLevel, pr.leftLimit⟩,
    max := ⟨max (pr.shoreLevel + 0.001) maxX,
            max (pr.floorLevel + 0.001) pr.surfaceLevel,
            pr.rightLimit⟩ }

/-- Source `RioScene.onWheel`: step the camera X by `wheelStepX` in the scroll
direction, clamp it to `[swimBox.min.x, params.start.x]`, then call
`updateSwimBoxDynamic` to resync the box.  Returns the new camera X and
the refreshed box. -/
noncomputable def onWheel (pr : WorldParams) (swimBox : Box3)
    (cameraX deltaY : ℝ) : ℝ × Box3 :=
  let step := pr.wheelStepX
  let dir : ℝ := if deltaY > 0 then 1 else if deltaY < 0 then -1 else 0
  let minX := swimBox.min.x
  let maxX := pr.startX
  let newX := clampR (cameraX + (if dir > 0 then step else -step)) minX maxX
  (newX, updateSwimBoxDynamic pr)

/- ------------------------------------------------------------------ -/
/- Instanced bags and `catchFish` slot compaction (C2, C3)             -/
/- ------------------------------------------------------------------ -/

/-- One per-species instanced bag, as `catchFish` sees it:
`instances` is the authoritative slot-to-agent map (`undefined` = `none`),
`instId` the `instanceId` field of each agent object, `matrices` the per-slot
instance matrix (abstract matrix type `M`), and `activeCount` the live
slot count.  Slot indices are integers, matching the JavaScript arithmetic
on `activeCount - 1`. -/
structure Bag (M : Type) where
  instances : ℤ → Option ℕ
  instId : ℕ → Option ℤ
  matrices : ℤ → M
  activeCount : ℤ

/-- The instanced path of `RioScene.catchFish(agent)`: guard on a missing
`instanceId`, then if the agent is not at the last active slot, swap the
two instance matrices, move the agent of the last slot into the freed slot
(updating its `instanceId`), park the caught agent at the tail; finally
decrement `activeCount` (floored at 0) and clear the tail slot.  (The
surrounding non-instanced branch, the `this.instanced.get` lookup and the
global `this.fish` splice are outside the bag and not modelled.) -/
def catchFish {M : Type} (b : Bag M) (aid : ℕ) : Bag M :=
  match b.instId aid with
  | none => b
  | some id =>
    let last := b.activeCount - 1
    let b1 :=
      if id ≠ last then
        -- 1) swap matrices (visual)
        let mA := b.matrices id
        let mB := b.matrices last
        let bm := { b with matrices := fun s =>
          if s = id then mB else if s = last then mA else b.matrices s }
        -- 2) swap agents (logic)
        let bo :=
          match bm.instances last with
          | some o =>
            { bm with
              instances := fun s => if s = id then some o else bm.instances s,
              instId := fun a => if a = o then some id else bm.instId a }
          | none => bm
        -- put the caught agent at the tail (about to be trimmed)
        { bo with
          instances := fun s => if s = last then some aid else bo.instances s,
          instId := fun a => if a = aid then some last else bo.instId a }
      else b
    -- 3) shrink the active draw range
    let b2 := { b1 with activeCount := max 0 (b1.activeCount - 1) }
    -- 4) clear the now-inactive slot so raycasts will not find a stale agent
    { b2 with instances := fun s => if s = last then none else b2.instances s }

/- ------------------------------------------------------------------ -/
/- C1: swim-box max.x versus the camera                                -/
/- ------------------------------------------------------------------ -/

/-- Concrete world parameters after `mount` (which runs
`params.swimBoxMaxX = params.start.x`), with the default shore at 40 and
the start camera X at 80. -/
noncomputable def prC1 : WorldParams :=
  { startX := 80, shoreLevel := 40, floorLevel := -15, surfaceLevel := 5,
    leftLimit := -60, rightLimit := 60, wheelStepX := 2,
    swimBoxMaxX := some 80 }

/-- C1, counterexample: scrolling the camera from x = 80 to x = 78 and
letting `onWheel` resync the box leaves `max.x = 80`, not
`max(min.x + 0.001, cameraX) = 78`: the box does not follow the camera. -/
theorem c1_counterexample :
    (onWheel prC1 (updateSwimBoxDynamic prC1) 80 (-1)).1 = 78 ∧
    (onWheel prC1 (updateSwimBoxDynamic prC1) 80 (-1)).2.max.x = 80 ∧
    (onWheel prC1 (updateSwimBoxDynamic prC1) 80 (-1)).2.max.x ≠
      max ((onWheel prC1 (updateSwimBoxDynamic prC1) 80 (-1)).2.min.x + 0.001)
        (onWheel prC1 (updateSwimBoxDynamic prC1) 80 (-1)).1 := by
  unfold onWheel updateSwimBoxDynamic prC1 clampR
  norm_num

/-- C1, amended: every refresh recomputes `max.x` from the frozen
parameter `swimBoxMaxX` (set once at mount to the starting camera X),
clamped to at least `min.x + 0.001`; the current camera X plays no role,
so the X extent of the box does not follow the camera. -/
theorem c1_frozen_maxX (pr : WorldParams)
    (hmounted : pr.swimBoxMaxX = some pr.startX) (b : Box3)
    (cameraX deltaY : ℝ) :
    (updateSwimBoxDynamic pr).max.x = max (pr.shoreLevel + 0.001) pr.startX ∧
    (onWheel pr b cameraX deltaY).2.max.x
      = max (pr.shoreLevel + 0.001) pr.startX ∧
    (updateSwimBoxDynamic pr).min.x + 0.001 ≤ (updateSwimBoxDynamic pr).max.x := by
  unfold onWheel updateSwimBoxDynamic
  rw [hmounted]
  refine ⟨rfl, rfl, ?_⟩
  exact le_max_left _ _

/-- C1, witness for the amended theorem at the concrete mounted params. -/
theorem c1_frozen_maxX_witness :
    prC1.swimBoxMaxX = some prC1.startX ∧
    ((updateSwimBoxDynamic prC1).max.x
        = max (prC1.shoreLevel + 0.001) prC1.startX ∧
      (onWheel prC1 (updateSwimBoxDynamic prC1) 60 1).2.max.x
        = max (prC1.shoreLevel + 0.001) prC1.startX ∧
      (updateSwimBoxDynamic prC1).min.x + 0.001
        ≤ (updateSwimBoxDynamic prC1).max.x) :=
  ⟨rfl, c1_frozen_maxX prC1 rfl (updateSwimBoxDynamic prC1) 60 1⟩

/- ------------------------------------------------------------------ -/
/- C2: compaction correctness of catchFish                             -/
/- ------------------------------------------------------------------ -/

/-- C2: removing the agent `aid` sitting at an active, non-last slot `i`
moves the agent `oid` from the last active slot to slot identity `i`,
drops `activeCount` by exactly one, leaves the slot of every other agent
identity unchanged, swaps the two instance matrices (leaving all others
unchanged), and clears the now-inactive tail slot. -/
theorem c2_compaction {M : Type} (b : Bag M) (aid oid : ℕ) (i : ℤ)
    (hid : b.instId aid = some i) (h0 : 0 ≤ i)
    (hlt : i < b.activeCount - 1)
    (hlast : b.instances (b.activeCount - 1) = some oid)
    (hne : oid ≠ aid) :
    (catchFish b aid).instId oid = some i ∧
    (catchFish b aid).instances i = some oid ∧
    (catchFish b aid).activeCount = b.activeCount - 1 ∧
    (∀ c : ℕ, c ≠ aid → c ≠ oid →
      (catchFish b aid).instId c = b.instId c) ∧
    (catchFish b aid).matrices i = b.matrices (b.activeCount - 1) ∧
    (catchFish b aid).matrices (b.activeCount - 1) = b.matrices i ∧
    (∀ s : ℤ, s ≠ i → s ≠ b.activeCount - 1 →
      (catchFish b aid).matrices s = b.matrices s) ∧
    (catchFish b aid).instances (b.activeCount - 1) = none := by
  have hnel : i ≠ b.activeCount - 1 := ne_of_lt hlt
  unfold catchFish
  rw [hid]
  simp only [hlast]
  refine ⟨?_, ?_, ?_, ?_, ?_, ?_, ?_, ?_⟩
  · simp [hne, hnel]
  · simp [hne, hnel]
  · dsimp only
    split
    · show max 0 (b.activeCount - 1) = b.activeCount - 1
      omega
    · show max 0 (b.activeCount - 1) = b.activeCount - 1
      omega
  · intro c hc1 hc2
    simp [hc1, hc2, hnel]
  · simp [hnel]
  · simp [hnel, Ne.symm hnel]
  · intro s hs1 hs2
    simp [hs1, hs2, hnel]
  · simp [hnel]

/-- A concrete two-agent bag (agent 10 at slot 0, agent 11 at slot 1,
matrices recording their slot index). -/
def bC2 : Bag ℤ :=
  { instances := fun s => if s = 0 then some 10 else if s = 1 then some 11 else none,
    instId := fun c => if c = 10 then some 0 else if c = 11 then some 1 else none,
    matrices := fun s => s,
    activeCount := 2 }

/-- C2, witness: the compaction theorem applied to the concrete bag. -/
theorem c2_compaction_witness :
    (bC2.instId 10 = some 0 ∧ (0:ℤ) ≤ 0 ∧ (0:ℤ) < bC2.activeCount - 1 ∧
      bC2.instances (bC2.activeCount - 1) = some 11 ∧ (11:ℕ) ≠ 10) ∧
    ((catchFish bC2 10).instId 11 = some 0 ∧
      (catchFish bC2 10).instances 0 = some 11 ∧
      (catchFish bC2 10).activeCount = bC2.activeCount - 1 ∧
      (∀ c : ℕ, c ≠ 10 → c ≠ 11 →
        (catchFish bC2 10).instId c = bC2.instId c) ∧
      (catchFish bC2 10).matrices 0 = bC2.matrices (bC2.activeCount - 1) ∧
      (catchFish bC2 10).matrices (bC2.activeCount - 1) = bC2.matrices 0 ∧
      (∀ s : ℤ, s ≠ 0 → s ≠ bC2.activeCount - 1 →
        (catchFish bC2 10).matrices s = bC2.matrices s) ∧
      (catchFish bC2 10).instances (bC2.activeCount - 1) = none) :=
  ⟨⟨by decide, by decide, by decide, by decide, by decide⟩,
    c2_compaction bC2 10 11 0 (by decide) (by decide) (by decide)
      (by decide) (by decide)⟩

/- ------------------------------------------------------------------ -/
/- C3: double catch is not a no-op                                     -/
/- ------------------------------------------------------------------ -/

/-- C3: `catchFish` has no `slot >= activeCount` guard.  After agent 10
is caught once (`activeCount` drops 2 -> 1 and its stale `instanceId` is
the inactive slot 1), catching it again re-enters the swap branch:
`activeCount` drops a second time to 0 and the surviving agent 11 is
evicted from the active mapping (slot 0 is cleared and 11 is pushed to
the inactive slot 1) — the second call is not a no-op. -/
theorem c3_double_catch_corrupts :
    (catchFish bC2 10).activeCount = 1 ∧
    (catchFish bC2 10).instId 10 = some 1 ∧
    (catchFish bC2 10).instances 0 = some 11 ∧
    (catchFish (catchFish bC2 10) 10).activeCount = 0 ∧
    (catchFish (catchFish bC2 10) 10).instances 0 = none ∧
    (catchFish (catchFish bC2 10) 10).instId 11 = some 1 := by
  refine ⟨?_, ?_, ?_, ?_, ?_, ?_⟩ <;> decide

/- ------------------------------------------------------------------ -/
/- C4: post-tick containment                                           -/
/- ------------------------------------------------------------------ -/

theorem contains_project (b : Box3) (hx : b.min.x ≤ b.max.x)
    (hy : b.min.y ≤ b.max.y) (hz : b.min.z ≤ b.max.z) (q : Vec3) :
    containsPoint b (projectInsideSwimBox b q) := by
  unfold containsPoint projectInsideSwimBox
  exact ⟨le_clampR _ _ _, clampR_le _ _ _ hx, le_clampR _ _ _,
    clampR_le _ _ _ hy, le_clampR _ _ _, clampR_le _ _ _ hz⟩

/-- C4: whatever forces act during the tick (any seek target, any
neighbor list, any cached separation force, any `dt`), the final agent
position after the `updateFish` loop body lies inside the current swim
box, inclusively on each axis, because the final step projects it in. -/
theorem c4_position_contained (swimBox : Box3) (pf : FishParams)
    (now dt : ℝ) (a : Agent) (ns : List Agent) (doSep : Bool)
    (gx gy uz u : ℝ) (hx : swimBox.min.x ≤ swimBox.max.x)
    (hy : swimBox.min.y ≤ swimBox.max.y)
    (hz : swimBox.min.z ≤ swimBox.max.z) :
    containsPoint swimBox
      (updateFishAgent swimBox pf now dt a ns doSep gx gy uz u).pos := by
  exact contains_project swimBox hx hy hz _

/-- Species bias block with the default sigma = 0 debugging setup. -/
noncomputable def spEx : SpeciesBias :=
  { biasXMean := 0.5, biasXSigma := 0, biasYMean := 0.5, biasYSigma := 0 }

/-- The `DEFAULT_PARAMS.fish` tunables. -/
noncomputable def pfEx : FishParams :=
  { speedMin := 2, speedMax := 4, accel := 8, separationRadius := 2,
    separationStrength := 1.2, targetReachDist := 1.5,
    retargetMin := 4, retargetMax := 8 }

/-- The scenario box of the spec: `[0,0,0]-[10,5,10]`. -/
noncomputable def boxEx : Box3 := ⟨⟨0, 0, 0⟩, ⟨10, 5, 10⟩⟩

/-- The scenario agent of the spec: at `(5,2,5)`, zero velocity, target
`(5,2,5)`, far-future retarget deadline. -/
noncomputable def aEx : Agent :=
  { id := 0, pos := ⟨5, 2, 5⟩, vel := 0, target := ⟨5, 2, 5⟩,
    nextRetargetAt := 100, speedMin := 2, speedMax := 4, sepForce := 0,
    species := spEx }

/-- C4, witness: containment after one tick of the scenario agent. -/
theorem c4_position_contained_witness :
    (boxEx.min.x ≤ boxEx.max.x ∧ boxEx.min.y ≤ boxEx.max.y ∧
      boxEx.min.z ≤ boxEx.max.z) ∧
    containsPoint boxEx
      (updateFishAgent boxEx pfEx 0 1 aEx [] true 0 0 (1/2) (1/2)).pos :=
  ⟨⟨by norm_num [boxEx], by norm_num [boxEx], by norm_num [boxEx]⟩,
    c4_position_contained boxEx pfEx 0 1 aEx [] true 0 0 (1/2) (1/2)
      (by norm_num [boxEx]) (by norm_num [boxEx]) (by norm_num [boxEx])⟩

/- ------------------------------------------------------------------ -/
/- C8: throttled spatial-index rebuild                                 -/
/- ------------------------------------------------------------------ -/

/-- C8: per tick the accumulator grows by `dt`; the index is rebuilt at
most once.  When the accumulated time reaches the period `1/30` the hash
is rebuilt exactly once from all current agents (cell size
`max(1e-3, separationRadius)`) and the accumulator resets to zero — even
when several periods elapsed; otherwise nothing is rebuilt and the
accumulator keeps the grown value. -/
theorem c8_rebuild_throttle (st : SepSched) (dt : ℝ) (agents : List Agent)
    (r : ℝ) (hhz : st.sepHz = 30) :
    ((sepSchedTick st dt agents r).1.rebuilds ≤ st.rebuilds + 1) ∧
    (1 / 30 ≤ st.sepAccum + dt →
      (sepSchedTick st dt agents r).2 = true ∧
      (sepSchedTick st dt agents r).1.sepAccum = 0 ∧
      (sepSchedTick st dt agents r).1.rebuilds = st.rebuilds + 1 ∧
      (sepSchedTick st dt agents r).1.hashMap
          = rebuildHash (max 1e-3 r) agents ∧
      (sepSchedTick st dt agents r).1.hashCell = max 1e-3 r) ∧
    (st.sepAccum + dt < 1 / 30 →
      (sepSchedTick st dt agents r).2 = false ∧
      (sepSchedTick st dt agents r).1.sepAccum = st.sepAccum + dt ∧
      (sepSchedTick st dt agents r).1.rebuilds = st.rebuilds ∧
      (sepSchedTick st dt agents r).1.hashMap = st.hashMap) := by
  unfold sepSchedTick
  rw [hhz]
  dsimp only
  split_ifs with h
  · exact ⟨le_refl _, fun _ => ⟨rfl, rfl, rfl, rfl, rfl⟩,
      fun hc => absurd h (by linarith)⟩
  · exact ⟨Nat.le_succ _, fun hc => absurd hc (by rw [ge_iff_le] at h; linarith),
      fun _ => ⟨rfl, rfl, rfl, rfl⟩⟩

/-- An idle scheduling state (fresh accumulator, 30 Hz). -/
noncomputable def stEx : SepSched :=
  { sepAccum := 0, sepHz := 30, hashCell := 3, hashMap := fun _ => [],
    rebuilds := 0 }

/-- C8, witness: a 10-second tick (300 periods) still rebuilds once. -/
theorem c8_rebuild_throttle_witness :
    stEx.sepHz = 30 ∧
    (((sepSchedTick stEx 10 [] 2).1.rebuilds ≤ stEx.rebuilds + 1) ∧
      (1 / 30 ≤ stEx.sepAccum + 10 →
        (sepSchedTick stEx 10 [] 2).2 = true ∧
        (sepSchedTick stEx 10 [] 2).1.sepAccum = 0 ∧
        (sepSchedTick stEx 10 [] 2).1.rebuilds = stEx.rebuilds + 1 ∧
        (sepSchedTick stEx 10 [] 2).1.hashMap = rebuildHash (max 1e-3 2) [] ∧
        (sepSchedTick stEx 10 [] 2).1.hashCell = max 1e-3 2) ∧
      (stEx.sepAccum + 10 < 1 / 30 →
        (sepSchedTick stEx 10 [] 2).2 = false ∧
        (sepSchedTick stEx 10 [] 2).1.sepAccum = stEx.sepAccum + 10 ∧
        (sepSchedTick stEx 10 [] 2).1.rebuilds = stEx.rebuilds ∧
        (sepSchedTick stEx 10 [] 2).1.hashMap = stEx.hashMap)) :=
  ⟨rfl, c8_rebuild_throttle stEx 10 [] 2 rfl⟩

/- ------------------------------------------------------------------ -/
/- C9: sigma-zero biased sampling is deterministic                     -/
/- ------------------------------------------------------------------ -/

/-- Clamping the mean fraction into `[0,1]` before scaling makes no
difference once the result is clamped into the box: the claimed formula
without the inner clamp agrees with the one the code computes. -/
theorem clamp_mean_span (m lo hi : ℝ) :
    clampR (lo + clampR m 0 1 * (hi - lo)) lo hi
      = clampR (lo + m * (hi - lo)) lo hi := by
  unfold clampR
  rcases le_total m 0 with hm | hm
  · rw [min_eq_right (by linarith : m ≤ (1:ℝ)), max_eq_left hm]
    rcases le_total lo hi with hlh | hlh
    · have hms : m * (hi - lo) ≤ 0 :=
        mul_nonpos_iff.mpr (Or.inr ⟨hm, by linarith⟩)
      rw [min_eq_right (by linarith : lo + 0 * (hi - lo) ≤ hi),
        min_eq_right (by linarith : lo + m * (hi - lo) ≤ hi),
        max_eq_left (by linarith : lo + m * (hi - lo) ≤ lo),
        max_eq_left (by linarith : lo + 0 * (hi - lo) ≤ lo)]
    · have hms : 0 ≤ m * (hi - lo) := by nlinarith
      rw [min_eq_left (by linarith : hi ≤ lo + 0 * (hi - lo)),
        min_eq_left (by linarith : hi ≤ lo + m * (hi - lo))]
  · rcases le_total m 1 with hm1 | hm1
    · rw [min_eq_right hm1, max_eq_right hm]
    · rw [min_eq_left hm1, max_eq_right (by linarith : (0:ℝ) ≤ 1)]
      rcases le_total lo hi with hlh | hlh
      · have hms : hi - lo ≤ m * (hi - lo) := by nlinarith
        rw [min_eq_left (by linarith : hi ≤ lo + 1 * (hi - lo)),
          min_eq_left (by linarith : hi ≤ lo + m * (hi - lo))]
      · have hms : m * (hi - lo) ≤ hi - lo := by nlinarith
        rw [min_eq_right (by linarith : lo + 1 * (hi - lo) ≤ hi),
          min_eq_right (by linarith : lo + m * (hi - lo) ≤ hi),
          max_eq_left (by linarith : lo + 1 * (hi - lo) ≤ lo),
          max_eq_left (by nlinarith : lo + m * (hi - lo) ≤ lo)]

/-- C9: with `sigmaX = sigmaY = 0`, `randBiasedPoint` ignores the
Gaussian draws entirely — no division and no noise term occurs — and the
X and Y components equal the claimed deterministic clamp of the mean
fraction along each span. -/
theorem c9_sigma_zero (sp : SpeciesBias) (box : Box3) (gx gy uz : ℝ)
    (hsx : sp.biasXSigma = 0) (hsy : sp.biasYSigma = 0) :
    (randBiasedPoint sp box gx gy uz).x
      = clampR (box.min.x + sp.biasXMean * (box.max.x - box.min.x))
          box.min.x box.max.x ∧
    (randBiasedPoint sp box gx gy uz).y
      = clampR (box.min.y + sp.biasYMean * (box.max.y - box.min.y))
          box.min.y box.max.y := by
  unfold randBiasedPoint
  rw [hsx, hsy]
  dsimp only
  constructor
  · rw [if_neg (by norm_num : ¬ ((0:ℝ) * (box.max.x - box.min.x) > 0))]
    rw [add_zero]
    exact clamp_mean_span _ _ _
  · rw [if_neg (by norm_num : ¬ ((0:ℝ) * (box.max.y - box.min.y) > 0))]
    rw [add_zero]
    exact clamp_mean_span _ _ _

/-- C9, witness: the sigma-zero species against the scenario box. -/
theorem c9_sigma_zero_witness :
    (spEx.biasXSigma = 0 ∧ spEx.biasYSigma = 0) ∧
    ((randBiasedPoint spEx boxEx 3 7 (1/4)).x
        = clampR (boxEx.min.x + spEx.biasXMean * (boxEx.max.x - boxEx.min.x))
            boxEx.min.x boxEx.max.x ∧
      (randBiasedPoint spEx boxEx 3 7 (1/4)).y
        = clampR (boxEx.min.y + spEx.biasYMean * (boxEx.max.y - boxEx.min.y))
            boxEx.min.y boxEx.max.y) :=
  ⟨⟨rfl, rfl⟩, c9_sigma_zero spEx boxEx 3 7 (1/4) rfl rfl⟩

/- ------------------------------------------------------------------ -/
/- C5: the retarget trigger produces an in-box target and a deadline   -/
/-     in the configured range                                         -/
/- ------------------------------------------------------------------ -/

theorem contains_randBiasedPoint (sp : SpeciesBias) (box : Box3)
    (gx gy uz : ℝ) (hx : box.min.x ≤ box.max.x)
    (hy : box.min.y ≤ box.max.y) (hz : box.min.z ≤ box.max.z) :
    containsPoint box (randBiasedPoint sp box gx gy uz) := by
  unfold containsPoint randBiasedPoint
  exact ⟨le_clampR _ _ _, clampR_le _ _ _ hx, le_clampR _ _ _,
    clampR_le _ _ _ hy, le_clampR _ _ _, clampR_le _ _ _ hz⟩

theorem lerpR_mem (a b t : ℝ) (hab : a ≤ b) (h0 : 0 ≤ t) (h1 : t ≤ 1) :
    a ≤ lerpR a b t ∧ lerpR a b t ≤ b := by
  unfold lerpR
  constructor <;> nlinarith

/-- C5: whenever the retarget disjunction holds for an agent — target
reached (`distance < targetReachDist`), deadline passed, or target
outside the (possibly just-shrunk) box — the tick assigns it
`randBiasedPoint` of the current box, which lies inside the box, and a
new deadline `now + lerp(retargetMin, retargetMax, u)` lying in
`[now + retargetMin, now + retargetMax]` for the uniform draw
`u ∈ [0,1]`. -/
theorem c5_retarget (swimBox : Box3) (pf : FishParams) (now dt : ℝ)
    (a : Agent) (ns : List Agent) (doSep : Bool) (gx gy uz u : ℝ)
    (htrig : len (a.target - a.pos) < pf.targetReachDist ∨
      a.nextRetargetAt ≤ now ∨ ¬ containsPoint swimBox a.target)
    (hx : swimBox.min.x ≤ swimBox.max.x) (hy : swimBox.min.y ≤ swimBox.max.y)
    (hz : swimBox.min.z ≤ swimBox.max.z) (hu0 : 0 ≤ u) (hu1 : u ≤ 1)
    (hrr : pf.retargetMin ≤ pf.retargetMax) :
    (updateFishAgent swimBox pf now dt a ns doSep gx gy uz u).target
        = randBiasedPoint a.species swimBox gx gy uz ∧
    containsPoint swimBox
      (updateFishAgent swimBox pf now dt a ns doSep gx gy uz u).target ∧
    now + pf.retargetMin
        ≤ (updateFishAgent swimBox pf now dt a ns doSep gx gy uz u).nextRetargetAt ∧
    (updateFishAgent swimBox pf now dt a ns doSep gx gy uz u).nextRetargetAt
        ≤ now + pf.retargetMax := by
  have hmem := lerpR_mem pf.retargetMin pf.retargetMax u hrr hu0 hu1
  unfold updateFishAgent
  rw [if_pos htrig]
  refine ⟨rfl, ?_, ?_, ?_⟩
  · exact contains_randBiasedPoint a.species swimBox gx gy uz hx hy hz
  · show now + pf.retargetMin ≤ now + lerpR pf.retargetMin pf.retargetMax u
    linarith [hmem.1]
  · show now + lerpR pf.retargetMin pf.retargetMax u ≤ now + pf.retargetMax
    linarith [hmem.2]

/-- C5, witness: the scenario of the spec — agent at its own target (distance
0 < 1.5) inside box `[0,0,0]-[10,5,10]`; one tick retargets it into the
box with a deadline in `[now+4, now+8]`. -/
theorem c5_retarget_witness :
    (len (aEx.target - aEx.pos) < pfEx.targetReachDist ∨
      aEx.nextRetargetAt ≤ 0 ∨ ¬ containsPoint boxEx aEx.target) ∧
    ((updateFishAgent boxEx pfEx 0 1 aEx [] true 0 0 (1/4) (1/2)).target
        = randBiasedPoint aEx.species boxEx 0 0 (1/4) ∧
      containsPoint boxEx
        (updateFishAgent boxEx pfEx 0 1 aEx [] true 0 0 (1/4) (1/2)).target ∧
      0 + pfEx.retargetMin
        ≤ (updateFishAgent boxEx pfEx 0 1 aEx [] true 0 0 (1/4) (1/2)).nextRetargetAt ∧
      (updateFishAgent boxEx pfEx 0 1 aEx [] true 0 0 (1/4) (1/2)).nextRetargetAt
        ≤ 0 + pfEx.retargetMax) :=
  have htrig : len (aEx.target - aEx.pos) < pfEx.targetReachDist ∨
      aEx.nextRetargetAt ≤ 0 ∨ ¬ containsPoint boxEx aEx.target := by
    left
    show len (aEx.target - aEx.pos) < pfEx.targetReachDist
    have hv : aEx.target - aEx.pos = (0 : Vec3) := by
      unfold aEx; ext <;> norm_num
    rw [hv]
    have h0 : len (0 : Vec3) = 0 := by
      unfold len len2; norm_num
    rw [h0]
    unfold pfEx
    norm_num
  ⟨htrig, c5_retarget boxEx pfEx 0 1 aEx [] true 0 0 (1/4) (1/2) htrig
    (by norm_num [boxEx]) (by norm_num [boxEx]) (by norm_num [boxEx])
    (by norm_num) (by norm_num) (by norm_num [pfEx])⟩

/- ------------------------------------------------------------------ -/
/- C6: the speed clamp after velocity integration                      -/
/- ------------------------------------------------------------------ -/

theorem len_xaxis (a : ℝ) : len (⟨a, 0, 0⟩ : Vec3) = |a| := by
  unfold len len2
  simp only [mul_zero, add_zero]
  rw [show a * a = a ^ 2 by ring, Real.sqrt_sq_eq_abs]

theorem len_zero : len (0 : Vec3) = 0 := by
  unfold len len2
  norm_num

/-- C6, amended: if the integrated velocity `vel + force*dt` is nonzero,
its magnitude is clamped into `[min(speedMin, 0.9*speedMax), speedMax]`;
the zero vector escapes the clamp (see the counterexample). -/
theorem c6_speed_clamped (vel force : Vec3) (dt smin smax : ℝ)
    (h0 : 0 ≤ smin) (h1 : 0 < smax)
    (hnz : len (vel + dt • force) ≠ 0) :
    min smin (smax * 0.9) ≤ len (integrateVelocity vel force dt smin smax) ∧
    len (integrateVelocity vel force dt smin smax) ≤ smax := by
  unfold integrateVelocity
  dsimp only
  have hpos : 0 < len (vel + dt • force) :=
    lt_of_le_of_ne (len_nonneg _) (Ne.symm hnz)
  have hmn0 : 0 ≤ min smin (smax * 0.9) := le_min h0 (by linarith)
  have hmnmax : min smin (smax * 0.9) ≤ smax :=
    le_trans (min_le_right _ _) (by linarith)
  split_ifs with hgt hlt
  · rw [len_setLengthV _ hpos, abs_of_pos h1]
    exact ⟨hmnmax, le_refl _⟩
  · rw [len_setLengthV _ hpos, abs_of_nonneg hmn0]
    exact ⟨le_refl _, hmnmax⟩
  · push_neg at hgt hlt
    exact ⟨hlt, hgt⟩

/-- C6, witness for the amended theorem: a nonzero integrated velocity of
magnitude 3 stays untouched inside `[2, 4]`. -/
theorem c6_speed_clamped_witness :
    ((0:ℝ) ≤ 2 ∧ (0:ℝ) < 4 ∧
      len ((⟨3, 0, 0⟩ : Vec3) + (1:ℝ) • (0 : Vec3)) ≠ 0) ∧
    (min (2:ℝ) (4 * 0.9) ≤ len (integrateVelocity ⟨3, 0, 0⟩ 0 1 2 4) ∧
      len (integrateVelocity ⟨3, 0, 0⟩ 0 1 2 4) ≤ 4) :=
  have hnz : len ((⟨3, 0, 0⟩ : Vec3) + (1:ℝ) • (0 : Vec3)) ≠ 0 := by
    have hco : (⟨3, 0, 0⟩ : Vec3) + (1:ℝ) • (0 : Vec3) = ⟨3, 0, 0⟩ := by
      ext <;> norm_num
    rw [hco, len_xaxis]
    norm_num
  ⟨⟨by norm_num, by norm_num, hnz⟩, c6_speed_clamped ⟨3, 0, 0⟩ 0 1 2 4
    (by norm_num) (by norm_num) hnz⟩

/-- The agent whose tick integrates to an exactly-zero velocity: speed 2
(its own `speedMin`), seek force `(-6,0,0)` (below the accel cap 8),
`dt = 1/3`. -/
noncomputable def aC6 : Agent :=
  { id := 0, pos := ⟨0, 0, 0⟩, vel := ⟨2, 0, 0⟩, target := ⟨-5, 0, 0⟩,
    nextRetargetAt := 100, speedMin := 2, speedMax := 4, sepForce := 0,
    species := spEx }

/-- A swim box comfortably containing `aC6` and its target. -/
noncomputable def boxC6 : Box3 := ⟨⟨-10, -10, -10⟩, ⟨10, 10, 10⟩⟩

/-- C6, counterexample to the claim as stated: a full tick of `aC6`
(no retarget, pure seek force, no neighbors, inside the box) integrates
the velocity to exactly the zero vector; `setLength` leaves the zero
vector unchanged, so the resulting speed 0 is strictly below the claimed
lower bound `min(speedMin, 0.9*speedMax) = 2`. -/
theorem c6_counterexample :
    (updateFishAgent boxC6 pfEx 0 (1/3) aC6 [] false 0 0 0 0).vel
        = (0 : Vec3) ∧
    len (updateFishAgent boxC6 pfEx 0 (1/3) aC6 [] false 0 0 0 0).vel = 0 ∧
    0 < min aC6.speedMin (aC6.speedMax * 0.9) := by
  have hv : aC6.target - aC6.pos = (⟨-5, 0, 0⟩ : Vec3) := by
    unfold aC6; ext <;> norm_num
  have hnorm : normalizeV (⟨-5, 0, 0⟩ : Vec3) = ⟨-1, 0, 0⟩ := by
    unfold normalizeV
    rw [len_xaxis]
    rw [if_neg (by norm_num : ¬ |(-5:ℝ)| = 0)]
    ext <;> norm_num
  have hseek : steerSeek aC6 aC6.target 1 = (⟨-6, 0, 0⟩ : Vec3) := by
    unfold steerSeek
    dsimp only
    rw [hv, len_xaxis, if_neg (by norm_num : ¬ |(-5:ℝ)| < 1e-5), hnorm]
    show (1:ℝ) • (aC6.speedMax • (⟨-1, 0, 0⟩ : Vec3) - aC6.vel) = _
    unfold aC6
    ext <;> norm_num
  have hcontain : steerContain boxC6 aC6 = (0 : Vec3) := by
    unfold steerContain boxC6 aC6
    norm_num
    ext <;> norm_num
  have hnotrig : ¬ (len (aC6.target - aC6.pos) < pfEx.targetReachDist ∨
      aC6.nextRetargetAt ≤ (0:ℝ) ∨ ¬ containsPoint boxC6 aC6.target) := by
    push_neg
    refine ⟨?_, ?_, ?_⟩
    · rw [hv, len_xaxis]
      unfold pfEx
      norm_num
    · unfold aC6
      norm_num
    · unfold containsPoint boxC6 aC6
      norm_num
  have hint : integrateVelocity (⟨2, 0, 0⟩ : Vec3) ⟨-6, 0, 0⟩ (1/3) 2 4
      = (0 : Vec3) := by
    unfold integrateVelocity
    dsimp only
    have hv1 : (⟨2, 0, 0⟩ : Vec3) + (1/3 : ℝ) • (⟨-6, 0, 0⟩ : Vec3)
        = (0 : Vec3) := by
      ext <;> norm_num
    rw [hv1, len_zero]
    rw [if_neg (by norm_num : ¬ (0:ℝ) > 4)]
    rw [if_pos (by rw [lt_min_iff]; constructor <;> norm_num :
      (0:ℝ) < min 2 (4 * 0.9))]
    unfold setLengthV normalizeV
    rw [len_zero, if_pos rfl]
    ext <;> norm_num
  have hvel : (updateFishAgent boxC6 pfEx 0 (1/3) aC6 [] false 0 0 0 0).vel
      = (0 : Vec3) := by
    unfold updateFishAgent
    rw [if_neg hnotrig]
    dsimp only
    have hforce : (⟨-6, 0, 0⟩ : Vec3) + 0 + (6:ℝ) • (0 : Vec3)
        = (⟨-6, 0, 0⟩ : Vec3) := by
      ext <;> norm_num
    simp only [hseek, hcontain, Bool.false_eq_true, if_false,
      show aC6.sepForce = (0 : Vec3) from rfl, hforce, len_xaxis]
    rw [if_neg (by unfold pfEx; norm_num : ¬ |(-6:ℝ)| > pfEx.accel)]
    rw [show aC6.vel = (⟨2, 0, 0⟩ : Vec3) from rfl,
      show aC6.speedMin = (2:ℝ) from rfl,
      show aC6.speedMax = (4:ℝ) from rfl]
    exact hint
  refine ⟨hvel, by rw [hvel]; exact len_zero, ?_⟩
  show (0:ℝ) < min aC6.speedMin (aC6.speedMax * 0.9)
  rw [show aC6.speedMin = (2:ℝ) from rfl, show aC6.speedMax = (4:ℝ) from rfl,
    lt_min_iff]
  constructor <;> norm_num

/- ------------------------------------------------------------------ -/
/- C7: separation force magnitude decays with distance                 -/
/- ------------------------------------------------------------------ -/

theorem len_normalizeV {v : Vec3} (hv : 0 < len v) : len (normalizeV v) = 1 := by
  unfold normalizeV
  rw [if_neg (ne_of_gt hv), len_smul,
    abs_of_pos (by positivity : (0:ℝ) < 1 / len v)]
  field_simp

/-- The separation force a single in-range neighbor induces. -/
theorem steerSeparation_single (a b : Agent) (r s : ℝ)
    (hid : b.id ≠ a.id) (h1 : 0 < len2 (a.pos - b.pos))
    (h2 : len2 (a.pos - b.pos) < r * r) :
    steerSeparation a [b] r s
      = s • ((1 / len2 (a.pos - b.pos)) • normalizeV (a.pos - b.pos)) := by
  unfold steerSeparation
  have hdec : decide (sepCounts a b r) = true :=
    decide_eq_true ⟨hid, h1, h2⟩
  simp only [List.map_cons, List.map_nil, List.sum_cons, List.sum_nil,
    add_zero, List.countP_cons, List.countP_nil, hdec, if_true]
  rw [if_pos (by norm_num)]
  unfold sepContrib
  rw [if_neg hid, if_pos ⟨h1, h2⟩]

/-- Magnitude of the single-neighbor separation force:
`strength / distance^2`. -/
theorem len_steerSeparation_single (a b : Agent) (r s : ℝ)
    (hid : b.id ≠ a.id) (h1 : 0 < len2 (a.pos - b.pos))
    (h2 : len2 (a.pos - b.pos) < r * r) (hs : 0 ≤ s) :
    len (steerSeparation a [b] r s) = s / (len (a.pos - b.pos)) ^ 2 := by
  rw [steerSeparation_single a b r s hid h1 h2]
  rw [len_smul, len_smul, len_normalizeV (len_pos_of_len2_pos h1)]
  rw [abs_of_nonneg hs, abs_of_pos (by positivity : (0:ℝ) < 1 / len2 (a.pos - b.pos))]
  rw [show (len (a.pos - b.pos)) ^ 2 = len (a.pos - b.pos) * len (a.pos - b.pos) by ring,
    len_sq]
  field_simp

/-- C7: for a pair of agents alone within `separationRadius`, the
separation force magnitude equals `separationStrength / d^2`, and it is
strictly decreasing in the distance `d`: a closer pair feels a strictly
larger force. -/
theorem c7_separation_decay (a1 b1 a2 b2 : Agent) (r s : ℝ)
    (hb1 : b1.id ≠ a1.id) (hb2 : b2.id ≠ a2.id)
    (h11 : 0 < len2 (a1.pos - b1.pos)) (h12 : len2 (a1.pos - b1.pos) < r * r)
    (h21 : 0 < len2 (a2.pos - b2.pos)) (h22 : len2 (a2.pos - b2.pos) < r * r)
    (hs : 0 < s) :
    len (steerSeparation a1 [b1] r s) = s / (len (a1.pos - b1.pos)) ^ 2 ∧
    (len (a1.pos - b1.pos) < len (a2.pos - b2.pos) →
      len (steerSeparation a2 [b2] r s) < len (steerSeparation a1 [b1] r s)) := by
  refine ⟨len_steerSeparation_single a1 b1 r s hb1 h11 h12 (le_of_lt hs), ?_⟩
  intro hlt
  rw [len_steerSeparation_single a1 b1 r s hb1 h11 h12 (le_of_lt hs),
    len_steerSeparation_single a2 b2 r s hb2 h21 h22 (le_of_lt hs)]
  have hp1 : 0 < len (a1.pos - b1.pos) := len_pos_of_len2_pos h11
  have hsq : (len (a1.pos - b1.pos)) ^ 2 < (len (a2.pos - b2.pos)) ^ 2 := by
    nlinarith [len_nonneg (a1.pos - b1.pos), len_nonneg (a2.pos - b2.pos)]
  exact div_lt_div_of_pos_left hs (by positivity) hsq

/-- Reference agent at the origin for the C7 scenario. -/
noncomputable def sepA : Agent :=
  { id := 0, pos := ⟨0, 0, 0⟩, vel := 0, target := 0, nextRetargetAt := 0,
    speedMin := 2, speedMax := 4, sepForce := 0, species := spEx }

/-- Neighbor 0.1 units away. -/
noncomputable def sepB : Agent :=
  { sepA with id := 1, pos := ⟨1/10, 0, 0⟩ }

/-- Neighbor 1.9 units away. -/
noncomputable def sepB2 : Agent :=
  { sepA with id := 1, pos := ⟨19/10, 0, 0⟩ }

/-- C7, witness: the scenario of the spec with `separationRadius = 2`,
`separationStrength = 1`; the force of the 0.1-apart pair strictly exceeds
the force of the 1.9-apart pair. -/
theorem c7_separation_decay_witness :
    (sepB.id ≠ sepA.id ∧ sepB2.id ≠ sepA.id ∧
      0 < len2 (sepA.pos - sepB.pos) ∧
      len2 (sepA.pos - sepB.pos) < 2 * 2 ∧
      0 < len2 (sepA.pos - sepB2.pos) ∧
      len2 (sepA.pos - sepB2.pos) < 2 * 2 ∧ (0:ℝ) < 1) ∧
    (len (steerSeparation sepA [sepB] 2 1)
        = 1 / (len (sepA.pos - sepB.pos)) ^ 2 ∧
      len (steerSeparation sepA [sepB2] 2 1)
        < len (steerSeparation sepA [sepB] 2 1)) :=
  have he1 : sepA.pos - sepB.pos = (⟨-(1/10), 0, 0⟩ : Vec3) := by
    unfold sepA sepB; ext <;> norm_num
  have he2 : sepA.pos - sepB2.pos = (⟨-(19/10), 0, 0⟩ : Vec3) := by
    unfold sepA sepB2; ext <;> norm_num
  have hl1 : len2 (sepA.pos - sepB.pos) = 1/100 := by
    rw [he1]; unfold len2; norm_num
  have hl2 : len2 (sepA.pos - sepB2.pos) = 361/100 := by
    rw [he2]; unfold len2; norm_num
  have hd1 : len (sepA.pos - sepB.pos) = 1/10 := by
    rw [he1, len_xaxis]; norm_num
  have hd2 : len (sepA.pos - sepB2.pos) = 19/10 := by
    rw [he2, len_xaxis]; norm_num
  have hid1 : sepB.id ≠ sepA.id := by unfold sepA sepB; norm_num
  have hid2 : sepB2.id ≠ sepA.id := by unfold sepA sepB2; norm_num
  have h11 : 0 < len2 (sepA.pos - sepB.pos) := by rw [hl1]; norm_num
  have h12 : len2 (sepA.pos - sepB.pos) < 2 * 2 := by rw [hl1]; norm_num
  have h21 : 0 < len2 (sepA.pos - sepB2.pos) := by rw [hl2]; norm_num
  have h22 : len2 (sepA.pos - sepB2.pos) < 2 * 2 := by rw [hl2]; norm_num
  have hmain := c7_separation_decay sepA sepB sepA sepB2 2 1 hid1 hid2
    h11 h12 h21 h22 (by norm_num)
  ⟨⟨hid1, hid2, h11, h12, h21, h22, by norm_num⟩,
    hmain.1, hmain.2 (by rw [hd1, hd2]; norm_num)⟩

/- ------------------------------------------------------------------ -/
/- C10: the 3x3x3 hash neighborhood refines the full agent list        -/
/- ------------------------------------------------------------------ -/

/-- The 27 cells of the block `neighbors(p)` visits. -/
noncomputable def blockCells (s : ℝ) (p : Vec3) : List Cell :=
  neighborOffsets.map (fun d =>
    ⟨(hashKey s p).cx + d.1, (hashKey s p).cy + d.2.1, (hashKey s p).cz + d.2.2⟩)

theorem hashNeighbors_eq_flatMap (hmap : Cell → List Agent) (s : ℝ)
    (p : Vec3) :
    hashNeighbors hmap s p = (blockCells s p).flatMap hmap := by
  unfold hashNeighbors blockCells
  rw [List.flatMap_map]

theorem sum_map_flatMap {α β M : Type} [AddCommMonoid M] (ks : List α)
    (f : α → List β) (c : β → M) :
    (((ks.flatMap f).map c).sum)
      = (ks.map (fun k => ((f k).map c).sum)).sum := by
  induction ks with
  | nil => simp
  | cons k ks ih => simp [List.flatMap_cons, ih]

theorem sum_map_filter_eq {α M : Type} [AddCommMonoid M] (l : List α)
    (p : α → Bool) (c : α → M) :
    ((l.filter p).map c).sum
      = (l.map (fun o => if p o then c o else 0)).sum := by
  induction l with
  | nil => simp
  | cons o l ih =>
    by_cases h : p o
    · simp [List.filter_cons, h, ih]
    · simp [List.filter_cons, h, ih]

theorem sum_map_add_split {α M : Type} [AddCommMonoid M] (l : List α)
    (f g : α → M) :
    (l.map (fun x => f x + g x)).sum = (l.map f).sum + (l.map g).sum := by
  induction l with
  | nil => simp
  | cons x l ih =>
    simp only [List.map_cons, List.sum_cons, ih]
    abel

theorem sum_map_zero_fun {α M : Type} [AddCommMonoid M] (l : List α) :
    (l.map (fun _ => (0:M))).sum = 0 := by
  induction l <;> simp_all

theorem sum_map_exchange {α β M : Type} [AddCommMonoid M] (ks : List α)
    (l : List β) (f : α → β → M) :
    (ks.map (fun k => (l.map (f k)).sum)).sum
      = (l.map (fun o => (ks.map (fun k => f k o)).sum)).sum := by
  induction ks with
  | nil => simp [sum_map_zero_fun]
  | cons k ks ih =>
    simp only [List.map_cons, List.sum_cons, ih]
    rw [← sum_map_add_split]

theorem sum_single_key {K M : Type} [DecidableEq K] [AddCommMonoid M]
    (ks : List K) (hnd : ks.Nodup) (k0 : K) (v : M) :
    (ks.map (fun k => if k0 = k then v else 0)).sum
      = if k0 ∈ ks then v else 0 := by
  induction ks with
  | nil => simp
  | cons k ks ih =>
    rcases List.nodup_cons.mp hnd with ⟨hk, hnd2⟩
    by_cases h : k0 = k
    · subst h
      simp [hk, ih hnd2]
    · simp [h, ih hnd2]

theorem neighborOffsets_nodup : neighborOffsets.Nodup := by decide

theorem blockCells_nodup (s : ℝ) (p : Vec3) : (blockCells s p).Nodup := by
  unfold blockCells
  refine List.Nodup.map ?_ neighborOffsets_nodup
  intro d1 d2 h
  obtain ⟨a1, b1, c1⟩ := d1
  obtain ⟨a2, b2, c2⟩ := d2
  simp only [Cell.mk.injEq] at h
  simp only [Prod.mk.injEq]
  omega

theorem mem_neighborOffsets_of_bounds (dx dy dz : ℤ) (h1 : -1 ≤ dx)
    (h2 : dx ≤ 1) (h3 : -1 ≤ dy) (h4 : dy ≤ 1) (h5 : -1 ≤ dz)
    (h6 : dz ≤ 1) : (dx, dy, dz) ∈ neighborOffsets := by
  unfold neighborOffsets
  simp only [List.mem_flatMap, List.mem_map, List.mem_cons,
    List.mem_singleton]
  exact ⟨dx, by omega, dy, by omega, dz, by omega, rfl⟩

theorem floor_sub_le_one {a b : ℝ} (h : |a - b| < 1) :
    -1 ≤ ⌊a⌋ - ⌊b⌋ ∧ ⌊a⌋ - ⌊b⌋ ≤ 1 := by
  rw [abs_lt] at h
  have h1 : ⌊a⌋ ≤ ⌊b⌋ + 1 := by
    rw [show (⌊b⌋ + 1 : ℤ) = ⌊b + 1⌋ by rw [Int.floor_add_one]]
    exact Int.floor_le_floor (by linarith)
  have h2 : ⌊b⌋ ≤ ⌊a⌋ + 1 := by
    rw [show (⌊a⌋ + 1 : ℤ) = ⌊a + 1⌋ by rw [Int.floor_add_one]]
    exact Int.floor_le_floor (by linarith)
  omega

/-- A point within `s` of `p` on every axis hashes into the 3x3x3 block
of cells around the cell of `p`. -/
theorem mem_blockCells_of_close (s : ℝ) (hs : 0 < s) (p q : Vec3)
    (hx : |q.x - p.x| < s) (hy : |q.y - p.y| < s) (hz : |q.z - p.z| < s) :
    hashKey s q ∈ blockCells s p := by
  have hfx := floor_sub_le_one (a := q.x / s) (b := p.x / s)
    (by rw [div_sub_div_same, abs_div, abs_of_pos hs]
        exact (div_lt_one hs).mpr hx)
  have hfy := floor_sub_le_one (a := q.y / s) (b := p.y / s)
    (by rw [div_sub_div_same, abs_div, abs_of_pos hs]
        exact (div_lt_one hs).mpr hy)
  have hfz := floor_sub_le_one (a := q.z / s) (b := p.z / s)
    (by rw [div_sub_div_same, abs_div, abs_of_pos hs]
        exact (div_lt_one hs).mpr hz)
  unfold blockCells hashKey
  apply List.mem_map.mpr
  refine ⟨(⌊q.x / s⌋ - ⌊p.x / s⌋, ⌊q.y / s⌋ - ⌊p.y / s⌋,
    ⌊q.z / s⌋ - ⌊p.z / s⌋), ?_, ?_⟩
  · exact mem_neighborOffsets_of_bounds _ _ _ hfx.1 hfx.2 hfy.1 hfy.2
      hfz.1 hfz.2
  · simp only [Cell.mk.injEq]
    omega

/-- An agent hashing outside the 27-cell block is farther than the
radius (cell size = radius), so it neither contributes force nor counts. -/
theorem sepContrib_zero_far (srad : ℝ) (hr : 0 < srad) (a o : Agent)
    (ho : hashKey srad o.pos ∉ blockCells srad a.pos) :
    sepContrib a o srad = 0 ∧ ¬ sepCounts a o srad := by
  have hclose : len2 (a.pos - o.pos) < srad * srad →
      hashKey srad o.pos ∈ blockCells srad a.pos := by
    intro hd2
    unfold len2 at hd2
    apply mem_blockCells_of_close srad hr a.pos o.pos
    · have hsq : (o.pos.x - a.pos.x) ^ 2 < srad ^ 2 := by
        simp only [Vec3.sub_x, Vec3.sub_y, Vec3.sub_z] at hd2
        nlinarith [mul_self_nonneg (a.pos.y - o.pos.y),
          mul_self_nonneg (a.pos.z - o.pos.z)]
      exact abs_lt_of_sq_lt_sq hsq (le_of_lt hr)
    · have hsq : (o.pos.y - a.pos.y) ^ 2 < srad ^ 2 := by
        simp only [Vec3.sub_x, Vec3.sub_y, Vec3.sub_z] at hd2
        nlinarith [mul_self_nonneg (a.pos.x - o.pos.x),
          mul_self_nonneg (a.pos.z - o.pos.z)]
      exact abs_lt_of_sq_lt_sq hsq (le_of_lt hr)
    · have hsq : (o.pos.z - a.pos.z) ^ 2 < srad ^ 2 := by
        simp only [Vec3.sub_x, Vec3.sub_y, Vec3.sub_z] at hd2
        nlinarith [mul_self_nonneg (a.pos.x - o.pos.x),
          mul_self_nonneg (a.pos.y - o.pos.y)]
      exact abs_lt_of_sq_lt_sq hsq (le_of_lt hr)
  constructor
  · unfold sepContrib
    by_cases hidq : o.id = a.id
    · rw [if_pos hidq]
    · rw [if_neg hidq, if_neg (fun hc => ho (hclose hc.2))]
  · intro hc
    exact ho (hclose hc.2.2)

/-- Sums of any per-agent quantity vanishing outside the block agree
between the hash neighborhood and the full agent list. -/
theorem sum_over_hashNeighbors {M : Type} [AddCommMonoid M] (s : ℝ)
    (agents : List Agent) (p : Vec3) (c : Agent → M)
    (hzero : ∀ o ∈ agents, hashKey s o.pos ∉ blockCells s p → c o = 0) :
    ((hashNeighbors (rebuildHash s agents) s p).map c).sum
      = (agents.map c).sum := by
  rw [hashNeighbors_eq_flatMap, sum_map_flatMap]
  have h1 : (blockCells s p).map
        (fun k => ((rebuildHash s agents k).map c).sum)
      = (blockCells s p).map
        (fun k => (agents.map
          (fun o => if hashKey s o.pos = k then c o else 0)).sum) := by
    congr 1
    funext k
    unfold rebuildHash
    rw [sum_map_filter_eq]
    simp only [decide_eq_true_eq]
  rw [h1, sum_map_exchange]
  have h2 : agents.map
        (fun o => ((blockCells s p).map
          (fun k => if hashKey s o.pos = k then c o else 0)).sum)
      = agents.map
        (fun o => if hashKey s o.pos ∈ blockCells s p then c o else 0) := by
    congr 1
    funext o
    exact sum_single_key (blockCells s p) (blockCells_nodup s p) _ _
  rw [h2]
  apply congrArg
  apply List.map_congr_left
  intro o hmem
  by_cases hin : hashKey s o.pos ∈ blockCells s p
  · rw [if_pos hin]
  · rw [if_neg hin, hzero o hmem hin]

theorem countP_eq_sum_map {α : Type} (l : List α) (p : α → Bool) :
    l.countP p = (l.map (fun o => if p o then (1:ℕ) else 0)).sum := by
  induction l with
  | nil => simp
  | cons o l ih =>
    by_cases h : p o <;>
      simp [List.countP_cons, h, ih, Nat.add_comm]

/-- C10: right after `rebuild` with cell size equal to
`separationRadius`, the separation force computed from the 3x3x3
neighborhood `neighbors(a.pos)` equals the force computed over the whole
agent list: every agent within the radius hashes into the block, and
agents in the block beyond the radius contribute nothing (to the force
sum or to the neighbor count). -/
theorem c10_hash_equals_full (agents : List Agent) (a : Agent)
    (r str : ℝ) (hr : 0 < r) :
    steerSeparation a (hashNeighbors (rebuildHash r agents) r a.pos) r str
      = steerSeparation a agents r str := by
  unfold steerSeparation
  have hforce : ((hashNeighbors (rebuildHash r agents) r a.pos).map
        (fun o => sepContrib a o r)).sum
      = (agents.map (fun o => sepContrib a o r)).sum :=
    sum_over_hashNeighbors r agents a.pos _
      (fun o _ hko => (sepContrib_zero_far r hr a o hko).1)
  have hcount : (hashNeighbors (rebuildHash r agents) r a.pos).countP
        (fun o => decide (sepCounts a o r))
      = agents.countP (fun o => decide (sepCounts a o r)) := by
    rw [countP_eq_sum_map, countP_eq_sum_map]
    refine sum_over_hashNeighbors r agents a.pos _ ?_
    intro o _ hko
    have hnc := (sepContrib_zero_far r hr a o hko).2
    simp [hnc]
  rw [hforce, hcount]

/-- C10, witness: a two-agent population, radius 2, one neighbor in
range; the hash-based force equals the whole-list force. -/
theorem c10_hash_equals_full_witness :
    (0:ℝ) < 2 ∧
    steerSeparation sepA
        (hashNeighbors (rebuildHash 2 [sepA, sepB]) 2 sepA.pos) 2 (1.2)
      = steerSeparation sepA [sepA, sepB] 2 (1.2) :=
  ⟨by norm_num, c10_hash_equals_full [sepA, sepB] sepA 2 (1.2) (by norm_num)⟩

end Rio
